import Mathlib

/-!
Verification of the AgentGPT policy / audit / skill core
(`backend/app/policies.py`, `backend/app/audit.py`, `backend/app/skills.py`).

The Python source is shallowly embedded: pure functions become Lean
functions, the wall clock and the filesystem become explicit parameters,
and Python exceptions become `Except` results.  Timestamps are modelled
as integers (`datetime` values are totally ordered and a `datetime`
object is always truthy in Python, so `if record.expires_at and ...`
means `expires_at` is not `None`).  Python dicts become association
lists in insertion order with overwrite-in-place assignment.  The `re`
patterns of the audit redactor are modelled by a small executable regex
engine (`matchAt` / `subGo`) with Python's leftmost, non-overlapping
substitution discipline; `json.dumps` is modelled with its default
separators, raising (`Except.error`) on a non-serializable value.
`pathlib.Path.resolve` is modelled lexically over a symlink-free
filesystem.
-/

namespace AgentGPT

/-- `app/models.py` `PermissionConfig` (pydantic model, all fields shown). -/
structure PermissionConfig where
  tools_enabled : Bool
  file_read_allowlist : List String
  file_write_allowlist : List String
  terminal_enabled : Bool
  terminal_allowlist : List String
  skills_enabled : List String
  require_approval : Bool
deriving DecidableEq, Repr

/-- `app/models.py` `ApprovalDecision`. -/
structure ApprovalDecision where
  allowed : Bool
  reason : String
  scope : String
  requires_approval : Bool
deriving DecidableEq, Repr

/-- `app/policies.py` `ApprovalRecord`: a ledger entry. -/
structure ApprovalRecord where
  scope : String
  expires_at : Option Int
deriving DecidableEq, Repr

/-- `app/policies.py` `ApprovalStore.is_approved`: scan all records for an
exact-scope match and skip a record only when it has an expiry that is
strictly before `now` (`if record.expires_at and record.expires_at < now:
continue`); return `True` at the first surviving match. -/
def isApproved (records : List ApprovalRecord) (now : Int) (scope : String) : Bool :=
  records.any fun r =>
    r.scope == scope &&
      (match r.expires_at with
       | none => true
       | some t => !(t < now))

/-- Split a character list at every occurrence of `sep` (the character-level
core of `str.split`). -/
def splitOnChar (sep : Char) : List Char → List (List Char)
  | [] => [[]]
  | c :: rest =>
    let r := splitOnChar sep rest
    if c = sep then [] :: r
    else
      match r with
      | [] => [[c]]
      | h :: t => (c :: h) :: t

/-- `pathlib.Path(path).resolve()`, modelled lexically on a symlink-free
filesystem: split on `/`, start from `cwd` unless the path is absolute,
drop empty and `.` components, and let `..` discard the last component. -/
def resolvePath (cwd : List String) (path : String) : List String :=
  let parts := (splitOnChar '/' path.data).map String.mk
  let start :=
    match path.data with
    | '/' :: _ => ([] : List String)
    | _ => cwd
  parts.foldl
    (fun acc part =>
      if part = "" || part = "." then acc
      else if part = ".." then acc.dropLast
      else acc ++ [part])
    start

/-- `resolved.is_relative_to(Path(entry).resolve())`: on resolved,
symlink-free paths this is exactly component-list containment. -/
def pathWithin (cwd : List String) (entry path : String) : Bool :=
  (resolvePath cwd entry).isPrefixOf (resolvePath cwd path)

/-- `app/policies.py` `PolicyEngine._check_path`: gate on `tools_enabled`,
then the allowlist loop (`resolved.is_relative_to(...)`, first match
wins), then the `ApprovalStore` fallback on the exact scope string. -/
def checkPath (cfg : PermissionConfig) (records : List ApprovalRecord) (now : Int)
    (cwd : List String) (path : String) (allowlist : List String) (scopeKind : String) :
    ApprovalDecision :=
  if !cfg.tools_enabled then
    { allowed := false, reason := "Tools disabled",
      scope := scopeKind ++ ":" ++ path, requires_approval := true }
  else if allowlist.any (fun entry => pathWithin cwd entry path) then
    { allowed := true, reason := "Allowlisted path",
      scope := scopeKind ++ ":" ++ path, requires_approval := false }
  else if isApproved records now (scopeKind ++ ":" ++ path) then
    { allowed := true, reason := "Approved path",
      scope := scopeKind ++ ":" ++ path, requires_approval := false }
  else
    { allowed := false, reason := "Path not allowlisted",
      scope := scopeKind ++ ":" ++ path, requires_approval := true }

/-- `PolicyEngine.check_file_read`. -/
def checkFileRead (cfg : PermissionConfig) (records : List ApprovalRecord) (now : Int)
    (cwd : List String) (path : String) : ApprovalDecision :=
  checkPath cfg records now cwd path cfg.file_read_allowlist "file_read"

/-- `PolicyEngine.check_file_write`. -/
def checkFileWrite (cfg : PermissionConfig) (records : List ApprovalRecord) (now : Int)
    (cwd : List String) (path : String) : ApprovalDecision :=
  checkPath cfg records now cwd path cfg.file_write_allowlist "file_write"

/-- `PolicyEngine.check_terminal`: gate on `tools_enabled` and
`terminal_enabled`, then exact membership in `terminal_allowlist`, then
the `ApprovalStore` fallback. -/
def checkTerminal (cfg : PermissionConfig) (records : List ApprovalRecord) (now : Int)
    (command : String) : ApprovalDecision :=
  if !cfg.tools_enabled || !cfg.terminal_enabled then
    { allowed := false, reason := "Terminal access disabled",
      scope := "terminal:" ++ command, requires_approval := true }
  else if cfg.terminal_allowlist.contains command then
    { allowed := true, reason := "Allowlisted command",
      scope := "terminal:" ++ command, requires_approval := false }
  else if isApproved records now ("terminal:" ++ command) then
    { allowed := true, reason := "Approved command",
      scope := "terminal:" ++ command, requires_approval := false }
  else
    { allowed := false, reason := "Command not allowlisted",
      scope := "terminal:" ++ command, requires_approval := true }

/-- `PolicyEngine.check_skill`. -/
def checkSkill (cfg : PermissionConfig) (records : List ApprovalRecord) (now : Int)
    (skillName : String) : ApprovalDecision :=
  if !cfg.tools_enabled then
    { allowed := false, reason := "Tools disabled",
      scope := "skill:" ++ skillName, requires_approval := true }
  else if cfg.skills_enabled.contains skillName then
    { allowed := true, reason := "Skill enabled",
      scope := "skill:" ++ skillName, requires_approval := false }
  else if isApproved records now ("skill:" ++ skillName) then
    { allowed := true, reason := "Skill approved",
      scope := "skill:" ++ skillName, requires_approval := false }
  else
    { allowed := false, reason := "Skill not enabled",
      scope := "skill:" ++ skillName, requires_approval := true }

inductive Regex where
  | eps
  | char (c : Char)
  | cls (cs : List Char) (neg : Bool)
  | any
  | seq (a b : Regex)
  | alt (a b : Regex)
  | star (a : Regex)
deriving DecidableEq, Repr

/-- Candidate match lengths of `r` at the head of `s`, in the backtracking
engine's preference order (first = the match Python's `re` reports), with
`fuel` bounding the call depth. -/
def matchLensF : Nat → Regex → List Char → List Nat
  | 0, _, _ => []
  | fuel + 1, r, s =>
    match r with
    | .eps => [0]
    | .char c =>
      match s with
      | [] => []
      | x :: _ => if x = c then [1] else []
    | .cls cs neg =>
      match s with
      | [] => []
      | x :: _ => if xor (cs.contains x) neg then [1] else []
    | .any =>
      match s with
      | [] => []
      | _ :: _ => [1]
    | .seq a b =>
      (matchLensF fuel a s).flatMap
        (fun n => (matchLensF fuel b (s.drop n)).map (fun m => n + m))
    | .alt a b => matchLensF fuel a s ++ matchLensF fuel b s
    | .star a =>
      ((matchLensF fuel a s).filter (fun n => n ≠ 0 && n ≤ s.length)).flatMap
        (fun n => (matchLensF fuel (.star a) (s.drop n)).map (fun m => n + m)) ++ [0]

def Regex.size : Regex → Nat
  | .eps => 1
  | .char _ => 1
  | .cls _ _ => 1
  | .any => 1
  | .seq a b => a.size + b.size + 1
  | .alt a b => a.size + b.size + 1
  | .star a => a.size + 1

def regexFuel (r : Regex) (s : List Char) : Nat :=
  (r.size + 2) * (s.length + 2)

/-- Length of the first match of `r` at the head of `s`, `none` if `r` does
not match there. -/
def matchAt (r : Regex) (s : List Char) : Option Nat :=
  (matchLensF (regexFuel r s) r s).head?

def literal (s : String) : Regex :=
  s.data.foldr (fun c acc => .seq (.char c) acc) .eps


/-- One pass of `pattern.sub(repl, s)` (Python `re.sub`): scan left to
right, replace each leftmost non-overlapping match, advance one character
after an empty match. `fuel` starts at `s.length + 1`. -/
def subGo (r : Regex) (repl : List Char) : Nat → List Char → List Char
  | 0, s => s
  | fuel + 1, s =>
    match matchAt r s, s with
    | none, [] => []
    | none, c :: rest => c :: subGo r repl fuel rest
    | some 0, [] => repl
    | some 0, c :: rest => repl ++ c :: subGo r repl fuel rest
    | some (n + 1), s => repl ++ subGo r repl fuel (s.drop (n + 1))

def subChars (r : Regex) (repl : List Char) (s : List Char) : List Char :=
  subGo r repl (s.length + 1) s

/-- `r` matches nowhere inside `s` (at no start position). -/
def noResidual (r : Regex) (s : List Char) : Bool :=
  (List.range (s.length + 1)).all (fun i => (matchAt r (s.drop i)).isNone)

inductive PyVal where
  | none
  | boolean (b : Bool)
  | int (n : Int)
  | str (s : String)
  | list (xs : List PyVal)
  | dict (xs : List (String × PyVal))
  | object (tag : String)

def redactedText : List Char := "<redacted>".data

/-- The string-leaf step of `AuditLogger._redact`: apply each compiled
pattern's `sub("<redacted>", ...)` in configured order. -/
def redactChars (ps : List Regex) (cs : List Char) : List Char :=
  ps.foldl (fun acc p => subChars p redactedText acc) cs

def redactString (ps : List Regex) (s : String) : String :=
  String.mk (redactChars ps s.data)

mutual
/-- `AuditLogger._redact`: recurse through dict values and list items,
rewrite string leaves, pass everything else through unchanged (dict keys
are not touched). -/
def redactValue (ps : List Regex) : PyVal → PyVal
  | .dict xs => .dict (redactPairs ps xs)
  | .list xs => .list (redactItems ps xs)
  | .str s => .str (redactString ps s)
  | v => v

def redactItems (ps : List Regex) : List PyVal → List PyVal
  | [] => []
  | x :: rest => redactValue ps x :: redactItems ps rest

def redactPairs (ps : List Regex) : List (String × PyVal) → List (String × PyVal)
  | [] => []
  | (k, v) :: rest => (k, redactValue ps v) :: redactPairs ps rest
end

def noResidualStr (ps : List Regex) (s : String) : Bool :=
  ps.all (fun p => noResidual p s.data)

mutual
/-- No configured pattern matches anywhere inside any string value of `v`. -/
def noResidualVal (ps : List Regex) : PyVal → Bool
  | .dict xs => noResidualPairs ps xs
  | .list xs => noResidualItems ps xs
  | .str s => noResidualStr ps s
  | _ => true

def noResidualItems (ps : List Regex) : List PyVal → Bool
  | [] => true
  | x :: rest => noResidualVal ps x && noResidualItems ps rest

def noResidualPairs (ps : List Regex) : List (String × PyVal) → Bool
  | [] => true
  | (_, v) :: rest => noResidualVal ps v && noResidualPairs ps rest
end


def escapeChar (c : Char) : List Char :=
  if c = '"' || c = '\\' then ['\\', c] else [c]

/-- JSON string quoting (enough of `json.dumps`' escaping for ASCII text
without control characters). -/
def quoteJson (s : String) : String :=
  String.mk ('"' :: s.data.foldr (fun c acc => escapeChar c ++ acc) ['"'])

mutual
/-- `json.dumps` with its default separators; a non-serializable value
raises `TypeError`, modelled as `.error`. -/
def dumps : PyVal → Except String String
  | .none => .ok "null"
  | .boolean b => .ok (if b then "true" else "false")
  | .int n => .ok (toString n)
  | .str s => .ok (quoteJson s)
  | .object tag => .error ("Object of type " ++ tag ++ " is not JSON serializable")
  | .list xs =>
    match dumpsItems xs with
    | .error e => .error e
    | .ok parts => .ok ("[" ++ String.intercalate ", " parts ++ "]")
  | .dict xs =>
    match dumpsPairs xs with
    | .error e => .error e
    | .ok parts => .ok ("\x7b" ++ String.intercalate ", " parts ++ "\x7d")

def dumpsItems : List PyVal → Except String (List String)
  | [] => .ok []
  | x :: rest =>
    match dumps x with
    | .error e => .error e
    | .ok s =>
      match dumpsItems rest with
      | .error e => .error e
      | .ok r => .ok (s :: r)

def dumpsPairs : List (String × PyVal) → Except String (List String)
  | [] => .ok []
  | (k, v) :: rest =>
    match dumps v with
    | .error e => .error e
    | .ok sv =>
      match dumpsPairs rest with
      | .error e => .error e
      | .ok r => .ok ((quoteJson k ++ ": " ++ sv) :: r)
end

/-- Python dict assignment `d[k] = v`: overwrite in place if the key is
present (keeping its position), else append. -/
def setKey (xs : List (String × PyVal)) (k : String) (v : PyVal) :
    List (String × PyVal) :=
  if xs.any (fun kv => kv.1 == k) then
    xs.map (fun kv => if kv.1 = k then (k, v) else kv)
  else xs ++ [(k, v)]

/-- Python dict lookup `d.get(k)` (first, hence unique, binding). -/
def getKey (xs : List (String × PyVal)) (k : String) : Option PyVal :=
  match xs with
  | [] => Option.none
  | (k2, v) :: rest => if k2 = k then some v else getKey rest k

/-- `AuditLogger.log`: stamp the caller's own dict with a `"timestamp"`
key, then append the JSON dump of the recursively redacted copy as one
newline-terminated line. The first component is the caller's dict after
the call; the second is the written line, or the `TypeError` that
`json.dumps` raises on a non-serializable value (the source has no
try/except around it). -/
def auditLog (ps : List Regex) (ts : String) (payload : List (String × PyVal)) :
    (List (String × PyVal)) × Except String String :=
  let stamped := setKey payload "timestamp" (.str ts)
  (stamped, (dumps (.dict (redactPairs ps stamped))).map (fun line => line ++ "\n"))

/-- `app/models.py` `ToolResult` (pydantic model; `metadata` defaults to
an empty dict). -/
structure ToolResult where
  success : Bool
  output : Option String
  error : Option String
  metadata : List (String × PyVal)

/-- `decision.model_dump()` as embedded in denial metadata. -/
def decisionPy (d : ApprovalDecision) : PyVal :=
  .dict [("allowed", .boolean d.allowed), ("reason", .str d.reason),
         ("scope", .str d.scope), ("requires_approval", .boolean d.requires_approval)]

/-- Filesystem lookup: the content at a path, if the file exists. -/
def getFile (fs : List (String × String)) (p : String) : Option String :=
  match fs with
  | [] => Option.none
  | (p2, c) :: rest => if p2 = p then some c else getFile rest p

/-- `Path.write_text`: overwrite in place or create. -/
def setFile (fs : List (String × String)) (p c : String) : List (String × String) :=
  if fs.any (fun kv => kv.1 == p) then
    fs.map (fun kv => if kv.1 = p then (p, c) else kv)
  else fs ++ [(p, c)]

/-- Remove a path (the source side of `Path.replace`). -/
def delFile (fs : List (String × String)) (p : String) : List (String × String) :=
  fs.filter (fun kv => !(kv.1 == p))

/-- The observable state the context operations act on: file contents,
the trace of `read_text` calls, the audit log lines appended so far, and
the child processes spawned. -/
structure World where
  fs : List (String × String)
  reads : List String
  auditLines : List String
  procs : List (List String)

/-- Result of `subprocess.run(command, ...)`: an `OSError` at launch, or
a completed process with combined stdout+stderr and a return code. -/
inductive ExecOutcome where
  | oserror (msg : String)
  | ran (output : String) (returncode : Int)

/-- The fixed collaborators a `SkillContext` is bound to: policy engine
inputs, audit patterns, the current timestamp, and the process launcher. -/
structure Env where
  cfg : PermissionConfig
  records : List ApprovalRecord
  now : Int
  cwd : List String
  patterns : List Regex
  ts : String
  exec : List String → ExecOutcome

/-- `SkillContext.read_file`: check policy; on denial return a failed
`ToolResult` with the decision in metadata and touch nothing. Otherwise
`Path(path).read_text(...)` — which raises `FileNotFoundError` when the
file is missing, with no try/except in the source — then one audit event,
then success with the content. -/
def contextReadFile (env : Env) (w : World) (path : String) :
    Except String (ToolResult × World) :=
  let decision := checkFileRead env.cfg env.records env.now env.cwd path
  if !decision.allowed then
    .ok ({ success := false, output := Option.none, error := some decision.reason,
           metadata := [("approval", decisionPy decision)] }, w)
  else
    match getFile w.fs path with
    | Option.none => .error ("FileNotFoundError: " ++ path)
    | some content =>
      let w1 : World := { w with reads := w.reads ++ [path] }
      match auditLog env.patterns env.ts
          [("tool", .str "file_read"), ("path", .str path),
           ("decision", .str "allowed"), ("summary", .str "Read file")] with
      | (_, .error e) => .error e
      | (_, .ok line) =>
        .ok ({ success := true, output := some content, error := Option.none,
               metadata := [] },
             { w1 with auditLines := w1.auditLines ++ [line] })

/-- `SkillContext.write_file`: check policy; on denial return failure and
touch nothing. Otherwise back up an existing target to
`<path>.bak` (`with_suffix(target.suffix + ".bak")` re-appends the
stripped suffix, so the backup path is `path + ".bak"`), write
`<path>.tmp`, rename it over the target, audit, return success. -/
def contextWriteFile (env : Env) (w : World) (path content : String) :
    Except String (ToolResult × World) :=
  let decision := checkFileWrite env.cfg env.records env.now env.cwd path
  if !decision.allowed then
    .ok ({ success := false, output := Option.none, error := some decision.reason,
           metadata := [("approval", decisionPy decision)] }, w)
  else
    let backupPath := path ++ ".bak"
    let tempPath := path ++ ".tmp"
    let w1 : World :=
      match getFile w.fs path with
      | some prior =>
        { w with reads := w.reads ++ [path], fs := setFile w.fs backupPath prior }
      | Option.none => w
    let w2 : World := { w1 with fs := setFile w1.fs tempPath content }
    let w3 : World := { w2 with fs := setFile (delFile w2.fs tempPath) path content }
    match auditLog env.patterns env.ts
        [("tool", .str "file_write"), ("path", .str path),
         ("decision", .str "allowed"), ("summary", .str "Wrote file")] with
    | (_, .error e) => .error e
    | (_, .ok line) =>
      .ok ({ success := true, output := some "File written", error := Option.none,
             metadata := [] },
           { w3 with auditLines := w3.auditLines ++ [line] })

/-- `SkillContext.run_command`: join argv for the scope key; check policy;
on denial return failure and spawn nothing. Otherwise run the process
(`OSError` at launch is caught and returned as a failed result with no
spawn and no audit), audit, and report `success = (returncode == 0)` with
combined output. -/
def contextRunCommand (env : Env) (w : World) (command : List String) :
    Except String (ToolResult × World) :=
  let joined := String.intercalate " " command
  let decision := checkTerminal env.cfg env.records env.now joined
  if !decision.allowed then
    .ok ({ success := false, output := Option.none, error := some decision.reason,
           metadata := [("approval", decisionPy decision)] }, w)
  else
    match env.exec command with
    | .oserror msg =>
      .ok ({ success := false, output := Option.none, error := some msg,
             metadata := [] }, w)
    | .ran out rc =>
      let w1 : World := { w with procs := w.procs ++ [command] }
      match auditLog env.patterns env.ts
          [("tool", .str "terminal"), ("command", .str joined),
           ("decision", .str "allowed"), ("summary", .str "Ran command")] with
      | (_, .error e) => .error e
      | (_, .ok line) =>
        .ok ({ success := decide (rc = 0), output := some out, error := Option.none,
               metadata := [] },
             { w1 with auditLines := w1.auditLines ++ [line] })

/-- `app/skills.py` `SkillManifest`. -/
structure SkillManifest where
  name : String
  description : String
  required_permissions : List String
  tools : List String
  entrypoint : String

/-- Outcome of calling a skill's `run(context, payload)` entrypoint:
it raises, returns a `ToolResult`, or returns some other value. -/
inductive SkillOutcome where
  | raises (msg : String)
  | toolResult (tr : ToolResult)
  | value (v : PyVal)

/-- What `exec`-ing an entrypoint file leaves at the name `run`:
nothing callable, or a callable with a given outcome. -/
inductive SkillCode where
  | noRun
  | runs (outcome : SkillOutcome)

/-- The `try` block at the end of `SkillManager.run`: pass a returned
`ToolResult` through unchanged; JSON-encode any other value
(`json.dumps(result)` sits inside the `try`, so the `TypeError` it
raises on a non-serializable value is caught by the same handler); and
convert a raised exception into `ToolResult(success=False,
error=str(exc))`. -/
def handleOutcome : SkillOutcome → ToolResult
  | .raises msg =>
    { success := false, output := Option.none, error := some msg, metadata := [] }
  | .toolResult tr => tr
  | .value v =>
    match dumps v with
    | .ok s => { success := true, output := some s, error := Option.none, metadata := [] }
    | .error e =>
      { success := false, output := Option.none, error := some e, metadata := [] }

/-- `self._manifests.get(skill_name)`. -/
def getManifest (xs : List (String × SkillManifest)) (k : String) : Option SkillManifest :=
  match xs with
  | [] => Option.none
  | (k2, v) :: rest => if k2 = k then some v else getManifest rest k

/-- `SkillManager.run`: manifest lookup, entrypoint-file existence check,
`run`-symbol check, then the guarded handler call (`handleOutcome`).
The fresh context the handler receives is part of the opaque outcome. -/
def skillManagerRun (manifests : List (String × SkillManifest))
    (fileExists : String → Bool) (code : String → SkillCode) (skillName : String) :
    ToolResult :=
  match getManifest manifests skillName with
  | Option.none =>
    { success := false, output := Option.none, error := some "Skill not found",
      metadata := [] }
  | some manifest =>
    let skillPath := skillName ++ "/" ++ manifest.entrypoint
    if !fileExists skillPath then
      { success := false, output := Option.none, error := some "Skill entrypoint missing",
        metadata := [] }
    else
      match code skillPath with
      | .noRun =>
        { success := false, output := Option.none, error := some "Skill missing run()",
          metadata := [] }
      | .runs outcome => handleOutcome outcome

/-- A `manifest.json` on disk: either its text parses as a JSON object,
or `json.loads` raises `JSONDecodeError` on it. -/
inductive ManifestFile where
  | valid (data : List (String × PyVal))
  | malformed (text : String)

/-- `data.get(k, default)` projected to a string field (values are stored
unvalidated by the source; only string values occur in the claims). -/
def getStrD (data : List (String × PyVal)) (k dflt : String) : String :=
  match getKey data k with
  | some (.str s) => s
  | _ => dflt

/-- `data.get(k, [])` projected to a list-of-strings field. -/
def getStrList (data : List (String × PyVal)) (k : String) : List String :=
  match getKey data k with
  | some (.list xs) =>
    xs.filterMap (fun v => match v with | .str s => some s | _ => Option.none)
  | _ => []

/-- `SkillManifest(name=data["name"], ...)`: `data["name"]` raises
`KeyError` when the key is missing; the optional fields use `data.get`
with the source's defaults. -/
def manifestFromData (data : List (String × PyVal)) : Except String SkillManifest :=
  match getKey data "name" with
  | Option.none => .error "KeyError: name"
  | some _ =>
    .ok { name := getStrD data "name" "", description := getStrD data "description" "",
          required_permissions := getStrList data "required_permissions",
          tools := getStrList data "tools",
          entrypoint := getStrD data "entrypoint" "skill.py" }

/-- `self._manifests[manifest.name] = manifest`: dict assignment, so the
last manifest discovered with a given name wins. -/
def setManifest (xs : List (String × SkillManifest)) (k : String) (v : SkillManifest) :
    List (String × SkillManifest) :=
  if xs.any (fun kv => kv.1 == k) then
    xs.map (fun kv => if kv.1 = k then (k, v) else kv)
  else xs ++ [(k, v)]

/-- `SkillManager._load_manifests`: fold over the discovered
`*/manifest.json` files in enumeration order. `json.loads` or
`data["name"]` raising aborts the whole loop — there is no try/except —
modelled by the `Except.error` short-circuit. -/
def loadManifestsGo (acc : List (String × SkillManifest)) :
    List (String × ManifestFile) → Except String (List (String × SkillManifest))
  | [] => .ok acc
  | (_, file) :: rest =>
    match file with
    | .malformed _ => .error "json.decoder.JSONDecodeError: Expecting value"
    | .valid data =>
      match manifestFromData data with
      | .error e => .error e
      | .ok m => loadManifestsGo (setManifest acc m.name m) rest

def loadManifests (entries : List (String × ManifestFile)) :
    Except String (List (String × SkillManifest)) :=
  loadManifestsGo [] entries

/-- Kill-switch configuration with maximal allowlists: used to witness
gate precedence. -/
def cfgKill : PermissionConfig :=
  { tools_enabled := false, file_read_allowlist := ["/"], file_write_allowlist := ["/"],
    terminal_enabled := false, terminal_allowlist := ["git status"],
    skills_enabled := ["echo"], require_approval := true }

/-- A ledger holding unexpired grants for every scope the witnesses use. -/
def liveGrantLedger : List ApprovalRecord :=
  [⟨"file_read:/data", none⟩, ⟨"terminal:git status", none⟩, ⟨"skill:echo", none⟩]

/-- The spec's Scenario A/B configuration: tools on, `/data` readable. -/
def cfgData : PermissionConfig :=
  { tools_enabled := true, file_read_allowlist := ["/data"], file_write_allowlist := ["/data"],
    terminal_enabled := true, terminal_allowlist := [],
    skills_enabled := [], require_approval := true }

/-- `literal "ed"`: a configured pattern whose matches occur inside the
replacement text `<redacted>`. -/
def edPat : Regex := literal "ed"

/-- Projection used to separate unequal redacted payloads: the first dict
value when it is a string. -/
def firstStr : PyVal → Option String
  | .dict ((_, .str s) :: _) => some s
  | _ => Option.none

/-- The spec's Scenario D manifest. -/
def echoManifest : SkillManifest := ⟨"echo", "", [], [], "skill.py"⟩

/-- Context bound to `cfgData`, an empty ledger and a no-op launcher. -/
def envData : Env :=
  { cfg := cfgData, records := [], now := 0, cwd := [], patterns := [], ts := "T",
    exec := fun _ => .ran "" 0 }

/-- Context bound to the kill-switch configuration and the live ledger. -/
def envKill : Env :=
  { cfg := cfgKill, records := liveGrantLedger, now := 0, cwd := [], patterns := [],
    ts := "T", exec := fun _ => .ran "" 0 }

/-- A world holding one file, to watch for unintended writes. -/
def smallWorld : World := ⟨[("/data/report.txt", "hello")], [], [], []⟩

/-- An empty filesystem. -/
def emptyWorld : World := ⟨[], [], [], []⟩

/-- C1 (gate precedence): whenever the capability class is globally
disabled — `tools_enabled = false`, or `terminal_enabled = false` for
terminal commands — every check returns `allowed = false` with
`requires_approval = true` and the fixed "disabled" reason, for every
ledger and every allowlist (the result does not depend on `records`, so
the ledger is not consulted). -/
theorem gate_precedence (cfg : PermissionConfig) (records : List ApprovalRecord)
    (now : Int) (cwd : List String) (path cmd skill : String) :
    (cfg.tools_enabled = false →
      checkFileRead cfg records now cwd path =
        ⟨false, "Tools disabled", "file_read:" ++ path, true⟩ ∧
      checkFileWrite cfg records now cwd path =
        ⟨false, "Tools disabled", "file_write:" ++ path, true⟩ ∧
      checkTerminal cfg records now cmd =
        ⟨false, "Terminal access disabled", "terminal:" ++ cmd, true⟩ ∧
      checkSkill cfg records now skill =
        ⟨false, "Tools disabled", "skill:" ++ skill, true⟩) ∧
    (cfg.terminal_enabled = false →
      checkTerminal cfg records now cmd =
        ⟨false, "Terminal access disabled", "terminal:" ++ cmd, true⟩) := by
  constructor <;> intro h <;>
    simp [checkFileRead, checkFileWrite, checkPath, checkTerminal, checkSkill, h]

/-- Witness for C1 at a concrete kill-switch configuration whose
allowlists and ledger would otherwise grant everything. -/
theorem gate_precedence_witness :
    cfgKill.tools_enabled = false ∧
    cfgKill.terminal_enabled = false ∧
    checkFileRead cfgKill liveGrantLedger 0 [] "/data" =
      ⟨false, "Tools disabled", "file_read:/data", true⟩ ∧
    checkTerminal cfgKill liveGrantLedger 0 "git status" =
      ⟨false, "Terminal access disabled", "terminal:git status", true⟩ :=
  ⟨rfl, rfl,
    ((gate_precedence cfgKill liveGrantLedger 0 [] "/data" "git status" "echo").1 rfl).1,
    (gate_precedence cfgKill liveGrantLedger 0 [] "/data" "git status" "echo").2 rfl⟩

theorem checkPath_static_iff (cfg : PermissionConfig) (records : List ApprovalRecord)
    (now : Int) (cwd : List String) (path : String) (allowlist : List String)
    (kind : String) (h : cfg.tools_enabled = true) :
    (checkPath cfg records now cwd path allowlist kind).reason = "Allowlisted path" ↔
      ∃ entry ∈ allowlist, pathWithin cwd entry path = true := by
  simp only [checkPath, h, Bool.not_true, Bool.false_eq_true, if_false]
  by_cases ha : allowlist.any (fun e => pathWithin cwd e path) = true
  · rw [if_pos ha]
    exact ⟨fun _ => List.any_eq_true.mp ha, fun _ => rfl⟩
  · rw [if_neg ha]
    have hne : ¬ ∃ entry ∈ allowlist, pathWithin cwd entry path = true := by
      rw [← List.any_eq_true]; exact ha
    constructor
    · intro hr; exfalso; revert hr; split <;> simp
    · intro he; exact absurd he hne

/-- C2 (allowlist containment): with tools enabled, a file-read or
file-write check allows on the static stage (reason "Allowlisted path")
exactly when the resolved request is equal to or a descendant of some
resolved allowlist entry; and the concrete string-prefix sibling
`/data-other/secret` of allowlist `/data` is denied with no ledger
grant. -/
theorem allowlist_containment (cfg : PermissionConfig) (records : List ApprovalRecord)
    (now : Int) (cwd : List String) (path : String) (h : cfg.tools_enabled = true) :
    ((checkFileRead cfg records now cwd path).reason = "Allowlisted path" ↔
      ∃ entry ∈ cfg.file_read_allowlist, pathWithin cwd entry path = true) ∧
    ((checkFileWrite cfg records now cwd path).reason = "Allowlisted path" ↔
      ∃ entry ∈ cfg.file_write_allowlist, pathWithin cwd entry path = true) ∧
    checkFileRead ⟨true, ["/data"], [], false, [], [], true⟩ [] 0 [] "/data-other/secret" =
      ⟨false, "Path not allowlisted", "file_read:/data-other/secret", true⟩ :=
  ⟨checkPath_static_iff cfg records now cwd path _ _ h,
   checkPath_static_iff cfg records now cwd path _ _ h,
   by decide⟩


/-- Every record in an all-expired ledger is skipped by `is_approved`. -/

theorem isApproved_eq_false_of_expired (records : List ApprovalRecord) (now : Int)
    (hrec : ∀ r ∈ records, ∃ u : Int, r.expires_at = some u ∧ u < now) :
    ∀ s : String, isApproved records now s = false := by
  intro s
  simp only [isApproved, List.any_eq_false]
  intro r hr
  obtain ⟨u, hu, hlt⟩ := hrec r hr
  simp [hu, hlt]

/-- C3 (ledger expiry and exact scope): a grant with a past expiry never
makes `is_approved` true (alone, or among other expired records, and in
particular the policy fallback then denies); a grant with no expiry or a
strictly future expiry makes `is_approved` true exactly for its own
scope string. -/
theorem ledger_expiry (now t : Int) (scope s2 cmd : String) :
    (t < now → ∀ s3 : String, isApproved [⟨scope, some t⟩] now s3 = false) ∧
    (isApproved [⟨scope, none⟩] now s2 = (s2 == scope)) ∧
    (now < t → isApproved [⟨scope, some t⟩] now s2 = (s2 == scope)) ∧
    (∀ (cfg : PermissionConfig) (cwd : List String) (path : String)
        (records : List ApprovalRecord),
      cfg.tools_enabled = true →
      cfg.file_read_allowlist.any (fun e => pathWithin cwd e path) = false →
      (∀ r ∈ records, ∃ u : Int, r.expires_at = some u ∧ u < now) →
      (checkFileRead cfg records now cwd path).allowed = false) ∧
    (∀ (cfg : PermissionConfig) (records : List ApprovalRecord),
      cfg.tools_enabled = true →
      cfg.terminal_enabled = true →
      cmd ∉ cfg.terminal_allowlist →
      (∀ r ∈ records, ∃ u : Int, r.expires_at = some u ∧ u < now) →
      (checkTerminal cfg records now cmd).allowed = false) := by
  refine ⟨?_, ?_, ?_, ?_, ?_⟩
  · intro h s3
    simp [isApproved, h]
  · simp [isApproved, BEq.comm]
  · intro h
    have hn : ¬ (t < now) := by omega
    simp [isApproved, hn, BEq.comm]
  · intro cfg cwd path records htools hstatic hrec
    simp [checkFileRead, checkPath, htools, hstatic,
      isApproved_eq_false_of_expired records now hrec]
  · intro cfg records htools hterm hstatic hrec
    simp [checkTerminal, htools, hterm, hstatic,
      isApproved_eq_false_of_expired records now hrec]

/-- Witness for C2 at the Scenario A/B configuration. -/
theorem allowlist_containment_witness :
    cfgData.tools_enabled = true ∧
    ((checkFileRead cfgData [] 0 [] "/data/report.txt").reason = "Allowlisted path" ↔
      ∃ entry ∈ cfgData.file_read_allowlist, pathWithin [] entry "/data/report.txt" = true) ∧
    checkFileRead ⟨true, ["/data"], [], false, [], [], true⟩ [] 0 [] "/data-other/secret" =
      ⟨false, "Path not allowlisted", "file_read:/data-other/secret", true⟩ :=
  ⟨rfl, (allowlist_containment cfgData [] 0 [] "/data/report.txt" rfl).1,
    (allowlist_containment cfgData [] 0 [] "/data/report.txt" rfl).2.2⟩

/-- Witness for C3 at `now = 10` with expiries 5 and 15 and scopes
`file_read:/a`, `file_read:/b`. -/
theorem ledger_expiry_witness :
    ((5 : Int) < 10 ∧ isApproved [⟨"file_read:/a", some 5⟩] 10 "file_read:/a" = false) ∧
    (isApproved [⟨"file_read:/a", none⟩] 10 "file_read:/a" = true ∧
      isApproved [⟨"file_read:/a", none⟩] 10 "file_read:/b" = false) ∧
    ((10 : Int) < 15 ∧ isApproved [⟨"file_read:/a", some 15⟩] 10 "file_read:/a" = true) ∧
    (cfgData.tools_enabled = true ∧
      cfgData.file_read_allowlist.any (fun e => pathWithin [] e "/etc/shadow") = false ∧
      (checkFileRead cfgData [⟨"file_read:/etc/shadow", some 5⟩] 10 [] "/etc/shadow").allowed
        = false) := by
  refine ⟨⟨by decide, ?_⟩, ⟨?_, ?_⟩, ⟨by decide, ?_⟩, rfl, by decide, ?_⟩
  · exact (ledger_expiry 10 5 "file_read:/a" "x" "ls").1 (by decide) "file_read:/a"
  · simpa using (ledger_expiry 10 5 "file_read:/a" "file_read:/a" "ls").2.1
  · simpa using (ledger_expiry 10 5 "file_read:/a" "file_read:/b" "ls").2.1
  · simpa using (ledger_expiry 10 15 "file_read:/a" "file_read:/a" "ls").2.2.1 (by decide)
  · refine (ledger_expiry 10 5 "x" "x" "ls").2.2.2.1 cfgData [] "/etc/shadow"
      [⟨"file_read:/etc/shadow", some 5⟩] rfl (by decide) ?_
    intro r hr
    simp only [List.mem_singleton] at hr
    exact ⟨5, by simp [hr], by omega⟩

theorem noResidual_head (r : Regex) (s : List Char) (h : noResidual r s = true) :
    matchAt r s = none := by
  simp only [noResidual, List.all_eq_true, List.mem_range] at h
  have := h 0 (by omega)
  simpa [Option.isNone_iff_eq_none] using this

theorem noResidual_tail (r : Regex) (c : Char) (rest : List Char)
    (h : noResidual r (c :: rest) = true) : noResidual r rest = true := by
  simp only [noResidual, List.all_eq_true, List.mem_range] at h ⊢
  intro i hi
  have := h (i + 1) (by simpa using Nat.succ_lt_succ hi)
  simpa using this

theorem subGo_eq_self (r : Regex) (repl : List Char) :
    ∀ s : List Char, noResidual r s = true → subGo r repl (s.length + 1) s = s
  | [], h => by simp [subGo, noResidual_head r [] h]
  | c :: rest, h => by
    have hm := noResidual_head r (c :: rest) h
    have ih := subGo_eq_self r repl rest (noResidual_tail r c rest h)
    show subGo r repl (rest.length + 1 + 1) (c :: rest) = c :: rest
    rw [subGo]
    · exact congrArg (fun t => c :: t) ih
    · exact hm

theorem subChars_eq_self (r : Regex) (repl : List Char) (s : List Char)
    (h : noResidual r s = true) : subChars r repl s = s :=
  subGo_eq_self r repl s h

theorem redactChars_eq_self (ps : List Regex) (cs : List Char)
    (h : ∀ p ∈ ps, noResidual p cs = true) : redactChars ps cs = cs := by
  induction ps with
  | nil => rfl
  | cons p rest ih =>
    have hp := subChars_eq_self p redactedText cs (h p (by simp))
    show redactChars rest (subChars p redactedText cs) = cs
    rw [hp]
    exact ih (fun q hq => h q (by simp [hq]))

theorem redactString_eq_self (ps : List Regex) (s : String)
    (h : noResidualStr ps s = true) : redactString ps s = s := by
  obtain ⟨d⟩ := s
  simp only [noResidualStr, List.all_eq_true] at h
  show String.mk (redactChars ps (String.mk d).data) = String.mk d
  rw [redactChars_eq_self ps (String.mk d).data (fun p hp => h p hp)]

mutual
theorem redactValue_eq_self (ps : List Regex) :
    ∀ v : PyVal, noResidualVal ps v = true → redactValue ps v = v
  | .none, _ => rfl
  | .boolean _, _ => rfl
  | .int _, _ => rfl
  | .object _, _ => rfl
  | .str s, h => congrArg PyVal.str (redactString_eq_self ps s h)
  | .list xs, h => congrArg PyVal.list (redactItems_eq_self ps xs h)
  | .dict xs, h => congrArg PyVal.dict (redactPairs_eq_self ps xs h)

theorem redactItems_eq_self (ps : List Regex) :
    ∀ xs : List PyVal, noResidualItems ps xs = true → redactItems ps xs = xs
  | [], _ => rfl
  | x :: rest, h => by
    have hs := h
    simp only [noResidualItems, Bool.and_eq_true] at hs
    show redactValue ps x :: redactItems ps rest = x :: rest
    rw [redactValue_eq_self ps x hs.1, redactItems_eq_self ps rest hs.2]

theorem redactPairs_eq_self (ps : List Regex) :
    ∀ xs : List (String × PyVal), noResidualPairs ps xs = true → redactPairs ps xs = xs
  | [], _ => rfl
  | (k, v) :: rest, h => by
    have hs := h
    simp only [noResidualPairs, Bool.and_eq_true] at hs
    show (k, redactValue ps v) :: redactPairs ps rest = (k, v) :: rest
    rw [redactValue_eq_self ps v hs.1, redactPairs_eq_self ps rest hs.2]
end

/-- Counterexample to C6 as stated: with configured pattern `ed`, the
payload whose key and value are both `ed` (a) is changed again by a
second redaction pass (`ed` occurs inside the replacement text
`<redacted>`), and (b) the persisted audit line still contains a match of
the pattern, because dict keys are never redacted. -/
theorem redaction_cex :
    (redactValue [edPat] (redactValue [edPat] (.dict [("ed", .str "ed")])) ≠
      redactValue [edPat] (.dict [("ed", .str "ed")])) ∧
    (auditLog [edPat] "T" [("ed", .str "ed")]).2 =
      .ok "\x7b\"ed\": \"<redacted>\", \"timestamp\": \"T\"\x7d\n" ∧
    noResidual edPat ("\x7b\"ed\": \"<redacted>\", \"timestamp\": \"T\"\x7d\n").data
      = false :=
  ⟨fun h => absurd (congrArg firstStr h) (by decide), rfl, by decide⟩

/-- C6 as amended (conditional redaction idempotence): redaction
recurses through mapping values and sequence elements and touches only
string leaves; a second application leaves the payload unchanged
whenever no configured pattern still matches inside the once-redacted
string values. -/
theorem redaction_idem (ps : List Regex) (v : PyVal)
    (h : noResidualVal ps (redactValue ps v) = true) :
    redactValue ps (redactValue ps v) = redactValue ps v :=
  redactValue_eq_self ps (redactValue ps v) h

/-- Witness for C6: with pattern `secret` the once-redacted payload has
no residual match and a second redaction is the identity. -/
theorem redaction_idem_witness :
    noResidualVal [literal "secret"]
      (redactValue [literal "secret"] (.dict [("k", .str "password: secret")])) = true ∧
    redactValue [literal "secret"]
        (redactValue [literal "secret"] (.dict [("k", .str "password: secret")])) =
      redactValue [literal "secret"] (.dict [("k", .str "password: secret")]) :=
  ⟨by decide, redaction_idem [literal "secret"] (.dict [("k", .str "password: secret")])
    (by decide)⟩

/-- C8 (code bug): `AuditLogger.log` has no try/except, so a payload
holding a non-JSON-serializable value makes `json.dumps` raise
`TypeError` out of `log` instead of writing a degraded event. -/
theorem audit_log_raises :
    (auditLog [] "2024-01-01T00:00:00+00:00" [("x", .object "set")]).2 =
      .error "Object of type set is not JSON serializable" := rfl

theorem getKey_map_overwrite (k : String) (v : PyVal) :
    ∀ xs : List (String × PyVal), xs.any (fun kv => kv.1 == k) = true →
      getKey (xs.map (fun kv => if kv.1 = k then (k, v) else kv)) k = some v := by
  intro xs
  induction xs with
  | nil => intro h; simp at h
  | cons hd rest ih =>
    obtain ⟨k2, w⟩ := hd
    intro h
    rw [List.map_cons]
    by_cases hk2 : k2 = k
    · rw [if_pos hk2]
      simp [getKey]
    · rw [if_neg hk2]
      have hb : (k2 == k) = false := beq_eq_false_iff_ne.mpr hk2
      simp only [List.any_cons, hb, Bool.false_or] at h
      simp [getKey, hk2, ih h]

theorem getKey_append_self (k : String) (v : PyVal) :
    ∀ xs : List (String × PyVal), xs.any (fun kv => kv.1 == k) = false →
      getKey (xs ++ [(k, v)]) k = some v := by
  intro xs
  induction xs with
  | nil => intro _; simp [getKey]
  | cons hd rest ih =>
    obtain ⟨k2, w⟩ := hd
    intro h
    simp only [List.any_cons, Bool.or_eq_false_iff] at h
    have hk2 : ¬ k2 = k := by
      intro he; rw [he] at h; simp at h
    have hr : rest.any (fun kv => kv.1 == k) = false := h.2
    simp [getKey, hk2, ih hr]

theorem getKey_map_other (k k2 : String) (v : PyVal) (hne : k2 ≠ k) :
    ∀ xs : List (String × PyVal),
      getKey (xs.map (fun kv => if kv.1 = k then (k, v) else kv)) k2 = getKey xs k2 := by
  intro xs
  induction xs with
  | nil => rfl
  | cons hd rest ih =>
    obtain ⟨k3, w⟩ := hd
    rw [List.map_cons]
    by_cases hk3 : k3 = k
    · rw [if_pos hk3]
      subst hk3
      simp [getKey, Ne.symm hne, ih]
    · rw [if_neg hk3]
      simp [getKey, ih]

theorem getKey_append_other (k k2 : String) (v : PyVal) (hne : k2 ≠ k) :
    ∀ xs : List (String × PyVal), getKey (xs ++ [(k, v)]) k2 = getKey xs k2 := by
  intro xs
  induction xs with
  | nil => simp [getKey, Ne.symm hne]
  | cons hd rest ih =>
    obtain ⟨k3, w⟩ := hd
    by_cases hk3 : k3 = k2 <;> simp [getKey, hk3, ih]

theorem getKey_setKey_same (xs : List (String × PyVal)) (k : String) (v : PyVal) :
    getKey (setKey xs k v) k = some v := by
  unfold setKey
  split
  next h => exact getKey_map_overwrite k v xs h
  next h => exact getKey_append_self k v xs (Bool.eq_false_iff.mpr h)

theorem getKey_setKey_other (xs : List (String × PyVal)) (k k2 : String) (v : PyVal)
    (hne : k2 ≠ k) : getKey (setKey xs k v) k2 = getKey xs k2 := by
  unfold setKey
  split
  next => exact getKey_map_other k k2 v hne xs
  next => exact getKey_append_other k k2 v hne xs

/-- C10 (log mutates its argument): `log` assigns
`payload["timestamp"] = ...` on the caller's own dict before redacting a
copy for the file, so after the call the caller's dict contains the
injected timestamp while every other key still holds its original,
unredacted value. -/
theorem audit_log_mutates (ps : List Regex) (ts : String)
    (payload : List (String × PyVal)) (k : String) (hk : k ≠ "timestamp") :
    getKey (auditLog ps ts payload).1 "timestamp" = some (.str ts) ∧
    getKey (auditLog ps ts payload).1 k = getKey payload k :=
  ⟨getKey_setKey_same payload "timestamp" (.str ts),
   getKey_setKey_other payload "timestamp" k (.str ts) hk⟩

/-- Witness for C10: after `log`, the caller's dict holds the
timestamp and the untouched secret value `pw=hunter2`. -/
theorem audit_log_mutates_witness :
    ("secret" : String) ≠ "timestamp" ∧
    getKey (auditLog [literal "hunter2"] "T" [("secret", .str "pw=hunter2")]).1 "timestamp"
      = some (.str "T") ∧
    getKey (auditLog [literal "hunter2"] "T" [("secret", .str "pw=hunter2")]).1 "secret"
      = some (.str "pw=hunter2") := by
  refine ⟨by decide, (audit_log_mutates [literal "hunter2"] "T"
    [("secret", .str "pw=hunter2")] "secret" (by decide)).1, ?_⟩
  rw [(audit_log_mutates [literal "hunter2"] "T"
    [("secret", .str "pw=hunter2")] "secret" (by decide)).2]
  rfl

/-- C4 (denial has no side effects): when the policy check denies, each
context operation returns `Except.ok` (no exception) carrying exactly the
denial `ToolResult` with `success = false` and the decision in its
metadata, and the world — files, read trace, audit lines, spawned
processes — is returned unchanged. -/
theorem denied_no_side_effects (env : Env) (w : World) (path wpath content : String)
    (command : List String)
    (h1 : (checkFileRead env.cfg env.records env.now env.cwd path).allowed = false)
    (h2 : (checkFileWrite env.cfg env.records env.now env.cwd wpath).allowed = false)
    (h3 : (checkTerminal env.cfg env.records env.now
        (String.intercalate " " command)).allowed = false) :
    contextReadFile env w path =
      .ok ({ success := false, output := Option.none,
             error := some (checkFileRead env.cfg env.records env.now env.cwd path).reason,
             metadata := [("approval",
               decisionPy (checkFileRead env.cfg env.records env.now env.cwd path))] }, w) ∧
    contextWriteFile env w wpath content =
      .ok ({ success := false, output := Option.none,
             error := some (checkFileWrite env.cfg env.records env.now env.cwd wpath).reason,
             metadata := [("approval",
               decisionPy (checkFileWrite env.cfg env.records env.now env.cwd wpath))] }, w) ∧
    contextRunCommand env w command =
      .ok ({ success := false, output := Option.none,
             error := some (checkTerminal env.cfg env.records env.now
               (String.intercalate " " command)).reason,
             metadata := [("approval", decisionPy (checkTerminal env.cfg env.records env.now
               (String.intercalate " " command)))] }, w) := by
  refine ⟨?_, ?_, ?_⟩
  · simp [contextReadFile, h1]
  · simp [contextWriteFile, h2]
  · simp [contextRunCommand, h3]

/-- Witness for C4: all three denials at the kill-switch context leave
the one-file world untouched. -/
theorem denied_no_side_effects_witness :
    (checkFileRead envKill.cfg envKill.records envKill.now envKill.cwd "/data/report.txt").allowed
      = false ∧
    (checkFileWrite envKill.cfg envKill.records envKill.now envKill.cwd "/data/out.txt").allowed
      = false ∧
    (checkTerminal envKill.cfg envKill.records envKill.now
      (String.intercalate " " ["git", "status"])).allowed = false ∧
    contextReadFile envKill smallWorld "/data/report.txt" =
      .ok ({ success := false, output := Option.none, error := some "Tools disabled",
             metadata := [("approval", decisionPy ⟨false, "Tools disabled",
               "file_read:/data/report.txt", true⟩)] }, smallWorld) ∧
    contextWriteFile envKill smallWorld "/data/out.txt" "x" =
      .ok ({ success := false, output := Option.none, error := some "Tools disabled",
             metadata := [("approval", decisionPy ⟨false, "Tools disabled",
               "file_write:/data/out.txt", true⟩)] }, smallWorld) ∧
    contextRunCommand envKill smallWorld ["git", "status"] =
      .ok ({ success := false, output := Option.none, error := some "Terminal access disabled",
             metadata := [("approval", decisionPy ⟨false, "Terminal access disabled",
               "terminal:git status", true⟩)] }, smallWorld) := by
  have h := denied_no_side_effects envKill smallWorld "/data/report.txt" "/data/out.txt" "x"
    ["git", "status"] rfl rfl rfl
  exact ⟨rfl, rfl, rfl, h.1, h.2.1, h.2.2⟩

/-- C7 (code bug): on an allowed path whose file does not exist,
`read_file` does not return a failed ToolResult — the unguarded
`Path(path).read_text` raises `FileNotFoundError`, which escapes the
context operation (`write_file` is equally unguarded; only
`run_command` catches `OSError`). -/
theorem read_file_raises_on_missing :
    (checkFileRead envData.cfg envData.records envData.now envData.cwd
      "/data/missing.txt").allowed = true ∧
    getFile emptyWorld.fs "/data/missing.txt" = Option.none ∧
    contextReadFile envData emptyWorld "/data/missing.txt" =
      .error "FileNotFoundError: /data/missing.txt" :=
  ⟨rfl, rfl, rfl⟩

/-- Counterexample to C5 as stated: a skill whose `run` returns a value
with no JSON encoding (a Python `set`) is not wrapped into
`ToolResult(success=True, ...)` — `json.dumps` raises inside the `try`
and the handler returns `success = false` with the `TypeError` message. -/
theorem skill_value_wrap_cex :
    skillManagerRun [("echo", echoManifest)] (fun _ => true)
        (fun _ => .runs (.value (.object "set"))) "echo" =
      { success := false, output := Option.none,
        error := some "Object of type set is not JSON serializable", metadata := [] } := rfl

/-- C5 as amended (skill fault isolation and result wrapping): for a
registered skill whose entrypoint file exists and defines a callable
`run`, a raised exception becomes `ToolResult(success=false)` with the
message as error; a returned `ToolResult` passes through unchanged; a
returned JSON-serializable value is wrapped into success with its JSON
encoding as output; and a returned non-serializable value yields
`success = false` with the serialization error. -/
theorem skill_run_wrapping (manifests : List (String × SkillManifest))
    (fileExists : String → Bool) (code : String → SkillCode)
    (skillName : String) (m : SkillManifest) (outcome : SkillOutcome)
    (hm : getManifest manifests skillName = some m)
    (hf : fileExists (skillName ++ "/" ++ m.entrypoint) = true)
    (hc : code (skillName ++ "/" ++ m.entrypoint) = .runs outcome) :
    (∀ msg, outcome = .raises msg →
      skillManagerRun manifests fileExists code skillName =
        { success := false, output := Option.none, error := some msg, metadata := [] }) ∧
    (∀ tr, outcome = .toolResult tr →
      skillManagerRun manifests fileExists code skillName = tr) ∧
    (∀ v s, outcome = .value v → dumps v = .ok s →
      skillManagerRun manifests fileExists code skillName =
        { success := true, output := some s, error := Option.none, metadata := [] }) ∧
    (∀ v e, outcome = .value v → dumps v = .error e →
      skillManagerRun manifests fileExists code skillName =
        { success := false, output := Option.none, error := some e, metadata := [] }) := by
  have hrun : skillManagerRun manifests fileExists code skillName = handleOutcome outcome := by
    simp [skillManagerRun, hm, hf, hc]
  refine ⟨?_, ?_, ?_, ?_⟩
  · intro msg h; subst h; simp [hrun, handleOutcome]
  · intro tr h; subst h; simp [hrun, handleOutcome]
  · intro v s h hd; subst h; simp [hrun, handleOutcome, hd]
  · intro v e h hd; subst h; simp [hrun, handleOutcome, hd]

/-- Witness for C5: the spec's Scenario D — entrypoint returns the dict
`ok: true` and is wrapped into a successful ToolResult with its JSON
encoding. -/
theorem skill_run_wrapping_witness :
    getManifest [("echo", echoManifest)] "echo" = some echoManifest ∧
    dumps (.dict [("ok", .boolean true)]) = .ok "\x7b\"ok\": true\x7d" ∧
    skillManagerRun [("echo", echoManifest)] (fun _ => true)
        (fun _ => .runs (.value (.dict [("ok", .boolean true)]))) "echo" =
      { success := true, output := some "\x7b\"ok\": true\x7d", error := Option.none,
        metadata := [] } := by
  refine ⟨rfl, rfl, ?_⟩
  exact (skill_run_wrapping [("echo", echoManifest)] (fun _ => true)
      (fun _ => .runs (.value (.dict [("ok", .boolean true)]))) "echo" echoManifest
      (.value (.dict [("ok", .boolean true)])) rfl rfl rfl).2.2.1
      (.dict [("ok", .boolean true)]) "\x7b\"ok\": true\x7d" rfl rfl

/-- C9 (code bug): one malformed manifest — unparseable JSON or a
missing `name` key — makes the whole registry load raise and abort, so
well-formed skills discovered after (and before) it are not registered;
without the malformed entry the same skills load fine. -/
theorem malformed_manifest_aborts_load :
    loadManifests [("alpha", .valid [("name", .str "alpha")]),
        ("broken", .malformed "not json"),
        ("gamma", .valid [("name", .str "gamma")])] =
      .error "json.decoder.JSONDecodeError: Expecting value" ∧
    loadManifests [("delta", .valid [("description", .str "no name key")])] =
      .error "KeyError: name" ∧
    loadManifests [("alpha", .valid [("name", .str "alpha")]),
        ("gamma", .valid [("name", .str "gamma")])] =
      .ok [("alpha", ⟨"alpha", "", [], [], "skill.py"⟩),
           ("gamma", ⟨"gamma", "", [], [], "skill.py"⟩)] :=
  ⟨rfl, rfl, rfl⟩

end AgentGPT
